import Mathlib

/-!
Verification of the Snowflake repository's reliable session transport
(`common/proto/proto.go`), the frame header codec
(`common/snowflake-proto/proto.go`) and the broker HTTP surface
(`broker/broker.go`, `broker/metrics.go`), as a shallow embedding.

Machine integers are modelled as `Nat` with explicit reduction modulo
`2^32` (for `uint32`) and `2^16` (for `uint16`); byte strings are
`List Nat`.  Fallible or panicking code paths are modelled with explicit
outcome types.
-/

set_option maxRecDepth 4000

/-- Modulus of the 32-bit sequence and acknowledgement space. -/
def u32max : Nat := 4294967296

/-- Reduction of a natural number into the `uint32` range, the
implicit effect of every Go `uint32` assignment and arithmetic op. -/
def u32 (n : Nat) : Nat := n % u32max

/-- Go `uint32` subtraction `a - b` (wrapping), for operands already in
range. -/
def subU32 (a b : Nat) : Nat := (a % u32max + (u32max - b % u32max)) % u32max

/-- Reinterpretation of a `uint32` value as Go `int32` (two's
complement), the effect of the cast `int32(x)`. -/
def i32 (n : Nat) : Int :=
  if n % u32max < 2 ^ 31 then (n % u32max : Int) else (n % u32max : Int) - (u32max : Int)

namespace Proto

/-! Embedding of package `common/proto` (file `common/proto/proto.go`),
the current reliable session transport. -/

/-- Constant `snowflakeHeaderLen` from `common/proto/proto.go`. -/
def snowflakeHeaderLen : Nat := 18

/-- Constant `maxLength` from `common/proto/proto.go`. -/
def maxLength : Nat := 65535

/-- Header of `common/proto/proto.go`: seq, ack and payload length.
This package's header carries no session id field; the session id is
sent once, before any frame, by the initiator. -/
structure snowflakeHeader where
  seq : Nat
  ack : Nat
  length : Nat
  deriving Repr, DecidableEq

/-- Big-endian serialization of a 32-bit value into four bytes
(`binary.BigEndian.PutUint32`). -/
def putUint32BE (v : Nat) : List Nat :=
  [v % u32max / 2 ^ 24, v % u32max / 2 ^ 16 % 256, v % u32max / 2 ^ 8 % 256, v % u32max % 256]

/-- Big-endian serialization of a 16-bit value into two bytes
(`binary.BigEndian.PutUint16`). -/
def putUint16BE (v : Nat) : List Nat :=
  [v % 65536 / 256, v % 65536 % 256]

/-- Function `snowflakeHeader.marshal` of `common/proto/proto.go`:
an 18-byte buffer with seq at bytes 0-3, ack at 4-7, length at 8-9, and
bytes 10-17 left zero (this header has no session id field). -/
def snowflakeHeader.marshal (h : snowflakeHeader) : List Nat :=
  putUint32BE h.seq ++ putUint32BE h.ack ++ putUint16BE h.length ++
    List.replicate 8 0

/-- State of a `SnowflakeConn` from `common/proto/proto.go`: the send
sequence counter `seq`, the receive counter `ack`
(next expected sequence number), the highest acknowledged send sequence
`acked`, and the retransmission buffer `buf`. -/
structure SnowflakeConn where
  seq : Nat
  ack : Nat
  acked : Nat
  buf : List Nat
  deriving Repr, DecidableEq

/-- Result of one `readBody` call: the updated connection state, the
bytes written to the reader pipe, the remaining carrier bytes, and
whether an acknowledgement frame is scheduled (`n > 0`). -/
structure ReadBodyResult where
  state : SnowflakeConn
  delivered : List Nat
  rest : List Nat
  sendsAck : Bool
  deriving Repr, DecidableEq

/-- Function `SnowflakeConn.readBody` of `common/proto/proto.go`.  The
carrier is the list of bytes following the already-parsed header.  If
the frame's seq matches `s.ack`, `header.length` bytes are copied to
the reader pipe and `s.ack` advances by `header.length` (mod 2^32);
otherwise that many bytes are discarded.  In both cases, if the frame's
ack field is ahead of `s.acked` under the signed 32-bit comparison
`int32(header.ack - s.acked) > 0`, that many bytes are dropped from the
front of the retransmission buffer and `s.acked` is updated.  An ack is
scheduled iff the copied byte count `n` is positive. -/
def SnowflakeConn.readBody (s : SnowflakeConn) (h : snowflakeHeader)
    (carrier : List Nat) : ReadBodyResult :=
  let n := min h.length carrier.length
  let matched := h.seq = s.ack
  let s1 : SnowflakeConn :=
    if matched then { s with ack := u32 (s.ack + h.length) } else s
  let d : Int := i32 (subU32 h.ack s1.acked)
  let s2 : SnowflakeConn :=
    if 0 < d then { s1 with buf := s1.buf.drop d.toNat, acked := u32 h.ack } else s1
  { state := s2
    delivered := if matched then carrier.take h.length else []
    rest := carrier.drop h.length
    sendsAck := if matched then decide (0 < n) else false }

/-- Go outcome of a `Write` call: a normal return `(n, err)` where the
error is either nil or `io.ErrShortWrite`, or a runtime panic. -/
inductive WriteOutcome where
  | ret (n : Nat) (shortWrite : Bool)
  | panicked
  deriving Repr, DecidableEq

/-- Effect of one `SnowflakeConn.Write` call: updated state, the frame
put on the carrier (header and payload) if any, the bytes written to
the carrier, the retransmission-timer target armed (if any), and the
returned value. -/
structure WriteResult where
  state : SnowflakeConn
  frame : Option (snowflakeHeader × List Nat)
  emitted : List Nat
  armed : Option Nat
  outcome : WriteOutcome
  deriving Repr, DecidableEq

/-- Function `SnowflakeConn.Write` of `common/proto/proto.go`.
`connAttached` states whether `s.conn` is non-nil and `connWriteFails`
whether the underlying carrier write returns an error.  The payload is
always appended to the retransmission buffer and `seq` always advances
by `len(b)` (mod 2^32).  With no carrier the call returns
`(len(b), nil)`.  If the carrier write fails, the code executes
`log.Printf("Error writing to connection: %s", err.Error())` where
`err` is the named return value, which is nil whenever
`len(b) <= maxLength` -- a nil-interface method call, i.e. a panic;
only when `len(b) > maxLength` is `err` non-nil and the call returns
`(len(b), nil)`.  On a successful carrier write the single
retransmission timer is armed (or re-armed) with target `s.seq` after
the advance. -/
def SnowflakeConn.Write (s : SnowflakeConn) (b : List Nat)
    (connAttached connWriteFails : Bool) : WriteResult :=
  let shortW := decide (b.length > maxLength)
  let hlen := if b.length > maxLength then maxLength else b.length
  let hdr : snowflakeHeader := ⟨s.seq, s.ack, hlen⟩
  let wire := hdr.marshal ++ b
  let s1 : SnowflakeConn := { s with seq := u32 (s.seq + b.length), buf := s.buf ++ b }
  if !connAttached then
    { state := s1, frame := none, emitted := [], armed := none
      outcome := .ret b.length false }
  else if connWriteFails then
    if shortW then
      { state := s1, frame := none, emitted := [], armed := none
        outcome := .ret b.length false }
    else
      { state := s1, frame := none, emitted := [], armed := none
        outcome := .panicked }
  else
    { state := s1, frame := some (hdr, b), emitted := wire, armed := some s1.seq
      outcome := .ret b.length shortW }

/-- Fire condition of the retransmission timer armed by
`newSnowflakeTimer` in `common/proto/proto.go`: on expiry the session
is closed iff `s.acked < timer.seq`, a plain unsigned `uint32`
comparison. -/
def timerFireCloses (acked target : Nat) : Bool := decide (acked % u32max < target % u32max)

/-- Predicate written from the spec's words for claim C5: `a` is less
than `b` under the signed 32-bit wraparound-aware sequence comparison,
i.e. `int32(b - a) > 0`. -/
def seqLtSigned (a b : Nat) : Bool := decide (0 < i32 (subU32 b a))

/-- Effect of one `SnowflakeConn.NewSnowflake` call: updated state,
whether the previously attached carrier was closed, whether the 8-byte
session id prefix was sent, and the frame re-emitted on the new carrier
from the retransmission buffer (if any). -/
structure AttachResult where
  state : SnowflakeConn
  closedOld : Bool
  sentSessionID : Bool
  resent : Option (snowflakeHeader × List Nat)
  deriving Repr, DecidableEq

/-- Function `SnowflakeConn.NewSnowflake` of `common/proto/proto.go`.
If a carrier was already attached (`hadConn`) it is closed first; the
new carrier is installed and a fresh read loop started.  A client
additionally sends the raw session id first.  If the retransmission
buffer is non-empty, `s.seq` is rewound to `s.acked`, the buffer is
drained (`s.buf.Next(s.buf.Len())`) and handed to `Write`, which frames
it, re-appends it to the buffer, and advances `seq` again. -/
def SnowflakeConn.NewSnowflake (s : SnowflakeConn) (hadConn isClient : Bool)
    (connWriteFails : Bool) : AttachResult :=
  let drained := s.buf
  if drained.length > 0 then
    let s1 : SnowflakeConn := { s with seq := s.acked, buf := [] }
    let w := s1.Write drained true connWriteFails
    { state := w.state, closedOld := hadConn, sentSessionID := isClient
      resent := w.frame }
  else
    { state := s, closedOld := hadConn, sentSessionID := isClient, resent := none }

/-- Operation on one side of a session, for reasoning about sequences
of `Write` and frame-receive (`readBody`) calls.  A `recv` op carries
the parsed frame header and the frame's payload bytes as they sit on
the carrier. -/
inductive Op where
  | write (b : List Nat) (connAttached connWriteFails : Bool)
  | recv (h : snowflakeHeader) (payload : List Nat)
  deriving Repr, DecidableEq

/-- Effect of one operation on a connection state. -/
def stepOp (s : SnowflakeConn) : Op → SnowflakeConn
  | .write b ca cw => (s.Write b ca cw).state
  | .recv h payload => (s.readBody h payload).state

/-- Effect of a list of operations, first op first. -/
def runOps (s : SnowflakeConn) : List Op → SnowflakeConn
  | [] => s
  | op :: rest => runOps (stepOp s op) rest

/-- Concatenation of the payloads of the write operations of a trace:
the outbound stream submitted by the caller. -/
def writesOf : List Op → List Nat
  | [] => []
  | .write b _ _ :: rest => b ++ writesOf rest
  | .recv _ _ :: rest => writesOf rest

/-- Validity of a trace with respect to the stream positions
`(A, S)` (bytes acknowledged so far, bytes sent so far) relative to the
initial send sequence number `seq0`: every received frame's ack field
encodes a stream position `a` between the current `A` and `S`, within
the signed 32-bit window of `A`.  This is what the acks of a conforming
peer (one that only acknowledges data it was actually sent) look like
on the wire. -/
def validOps (seq0 : Nat) : Nat → Nat → List Op → Prop
  | A, S, .write b _ _ :: rest => validOps seq0 A (S + b.length) rest
  | A, S, .recv h _ :: rest =>
      (∃ a, A ≤ a ∧ a ≤ S ∧ a - A < 2 ^ 31 ∧ h.ack = u32 (seq0 + a)) ∧
        (∀ a, A ≤ a → a ≤ S → a - A < 2 ^ 31 → h.ack = u32 (seq0 + a) →
          validOps seq0 a S rest)
  | _, _, [] => True

end Proto

namespace SProto

/-! Embedding of the frame header codec of
`common/snowflake-proto/proto.go`, the current 18-byte header that
carries the 8-byte session id in every frame. -/

/-- Constant `snowflakeHeaderLen` from `common/snowflake-proto/proto.go`. -/
def snowflakeHeaderLen : Nat := 18

/-- Header of `common/snowflake-proto/proto.go`: seq, ack, payload
length and the 8-byte session id. -/
structure snowflakeHeader where
  seq : Nat
  ack : Nat
  length : Nat
  sessionID : List Nat
  deriving Repr, DecidableEq

/-- Function `snowflakeHeader.Marshal` of
`common/snowflake-proto/proto.go`: an 18-byte buffer with seq (BE u32)
at bytes 0-3, ack (BE u32) at 4-7, length (BE u16) at 8-9, and
`copy(b[10:18], h.sessionID)` placing the session id at bytes 10-17
(bytes beyond the session id's length stay zero). -/
def snowflakeHeader.Marshal (h : snowflakeHeader) : List Nat :=
  Proto.putUint32BE h.seq ++ Proto.putUint32BE h.ack ++ Proto.putUint16BE h.length ++
    (h.sessionID.take 8 ++ List.replicate (8 - h.sessionID.length) 0)

/-- Function `snowflakeHeader.Parse` of
`common/snowflake-proto/proto.go`: reads seq from bytes 0-3 (BE), ack
from 4-7 (BE), length from 8-9 (BE) and the session id from bytes
10-17 of an 18-byte buffer. -/
def snowflakeHeader.Parse (b : List Nat) : snowflakeHeader :=
  { seq := ((b.getD 0 0 * 256 + b.getD 1 0) * 256 + b.getD 2 0) * 256 + b.getD 3 0
    ack := ((b.getD 4 0 * 256 + b.getD 5 0) * 256 + b.getD 6 0) * 256 + b.getD 7 0
    length := b.getD 8 0 * 256 + b.getD 9 0
    sessionID := (b.drop 10).take 8 }

end SProto

namespace Broker

/-! Embedding of the broker HTTP surface (`broker/broker.go`) and its
metrics (`broker/metrics.go` together with the parts of the metrics
aggregator that are specified but absent from `src/`). -/

/-- Client NAT class as declared in a client offer (glossary of the
spec: `unknown`, `restricted`, `unrestricted`). -/
inductive NATClass where
  | unknown
  | restricted
  | unrestricted
  deriving Repr, DecidableEq

/-- Modelled from the spec: the denied counters of the metrics
aggregator, partitioned by client NAT class
(`client-restricted-denied-count` and `client-unrestricted-denied-count`).
The broker source under `src/` (`broker/metrics.go`) predates these
counters; they exist only in the spec and the broker protocol
document. -/
structure DeniedCounters where
  restrictedDenied : Nat
  unrestrictedDenied : Nat
  deriving Repr, DecidableEq

/-- Modelled from the spec: recording one denied client, on the counter
for the client's declared NAT class -- clients with a restricted or
unknown NAT increment the restricted counter, unrestricted clients the
unrestricted counter. -/
def recordDenied (m : DeniedCounters) (nat : NATClass) : DeniedCounters :=
  match nat with
  | .unrestricted => { m with unrestrictedDenied := m.unrestrictedDenied + 1 }
  | _ => { m with restrictedDenied := m.restrictedDenied + 1 }

/-- HTTP response of the `/client` handler. -/
inductive OfferResponse where
  | answer (body : List Nat)
  | badRequest
  | unavailable
  | gatewayTimeout
  deriving Repr, DecidableEq

/-- Result of one `clientOffers` call: the response, the updated denied
counters, and whether the handler parked on the answer channel. -/
structure ClientOfferResult where
  resp : OfferResponse
  metrics : DeniedCounters
  waited : Bool
  deriving Repr, DecidableEq

/-- Handler `clientOffers` of `broker/broker.go`, with the denied
counter increments modelled from the spec (the source under `src/`
returns 503 on an empty proxy heap but predates the counters).
`heapSize` is `ctx.snowflakes.Len()`; `bodyOk` is whether the offer
body was read successfully; `answerArrives` is the answer delivered on
the matched proxy's channel before the client timeout, if any. -/
def clientOffers (heapSize : Nat) (m : DeniedCounters) (nat : NATClass)
    (bodyOk : Bool) (answerArrives : Option (List Nat)) : ClientOfferResult :=
  if !bodyOk then
    { resp := .badRequest, metrics := m, waited := false }
  else if heapSize ≤ 0 then
    { resp := .unavailable, metrics := recordDenied m nat, waited := false }
  else
    match answerArrives with
    | some a => { resp := .answer a, metrics := m, waited := true }
    | none => { resp := .gatewayTimeout, metrics := m, waited := true }

/-- HTTP response of the `/answer` handler. -/
inductive AnswerResponse where
  | success
  | gone
  | badRequest
  deriving Repr, DecidableEq

/-- Result of one `proxyAnswers` call: the response, the answer
delivered on a waiting client's channel (tagged with the matched
snowflake's channel identity), and the session-id map afterwards. -/
structure ProxyAnswerResult where
  resp : AnswerResponse
  delivered : Option (Nat × List Nat)
  idToSnowflake : List (String × Nat)
  deriving Repr, DecidableEq

/-- Handler `proxyAnswers` of `broker/broker.go`.  The session id `sid`
is looked up in `ctx.idToSnowflake` first; a miss answers 410 (gone).
Then the body is read: a read error (`body = none`) or an empty body
answers 400.  Otherwise the body is sent on the matched snowflake's
`answerChannel` and the handler returns (an implicit 200). -/
def proxyAnswers (st : List (String × Nat)) (sid : String)
    (body : Option (List Nat)) : ProxyAnswerResult :=
  match st.lookup sid with
  | none => { resp := .gone, delivered := none, idToSnowflake := st }
  | some sf =>
    match body with
    | none => { resp := .badRequest, delivered := none, idToSnowflake := st }
    | some b =>
      if b.length ≤ 0 then { resp := .badRequest, delivered := none, idToSnowflake := st }
      else { resp := .success, delivered := some (sf, b), idToSnowflake := st }

/-- Modelled from the spec: the metrics-emission rounding of the
metrics aggregator, absent from `broker/metrics.go` under `src/` --
"Counters are rounded up to the nearest multiple of 8 on emission". -/
def binCount (n : Nat) : Nat := (n + 7) / 8 * 8

/-- Modelled from the spec: the counters and unique-IP set
cardinalities emitted on `GET /metrics`. -/
structure MetricsSnapshot where
  idleCount : Nat
  deniedCount : Nat
  restrictedDeniedCount : Nat
  unrestrictedDeniedCount : Nat
  matchCount : Nat
  ipsTotal : Nat
  ipsStandalone : Nat
  deriving Repr, DecidableEq

/-- Modelled from the spec: emission of a metrics snapshot -- every
counter is passed through `binCount`, while the unique-IP set
cardinalities are emitted as they are. -/
def emitMetrics (m : MetricsSnapshot) : MetricsSnapshot :=
  { idleCount := binCount m.idleCount
    deniedCount := binCount m.deniedCount
    restrictedDeniedCount := binCount m.restrictedDeniedCount
    unrestrictedDeniedCount := binCount m.unrestrictedDeniedCount
    matchCount := binCount m.matchCount
    ipsTotal := m.ipsTotal
    ipsStandalone := m.ipsStandalone }

end Broker

/-! Helper lemmas on the 32-bit arithmetic helpers. -/

lemma u32_u32_add (x y : Nat) : u32 (u32 x + y) = u32 (x + y) := by
  unfold u32
  exact Nat.mod_add_mod x u32max y

lemma u32_u32 (x : Nat) : u32 (u32 x) = u32 x := by
  unfold u32 u32max
  omega

lemma subU32_shift (x a A : Nat) (h1 : A ≤ a) (h2 : a - A < 2 ^ 31) :
    subU32 (u32 (x + a)) (u32 (x + A)) = a - A := by
  unfold subU32 u32 u32max
  omega

lemma i32_small (n : Nat) (h : n < 2 ^ 31) : i32 n = (n : Int) := by
  unfold i32 u32max
  split <;> omega

/-! Projection lemmas for `readBody` and `Write`. -/

lemma readBody_state_ack (s : Proto.SnowflakeConn) (h : Proto.snowflakeHeader)
    (carrier : List Nat) :
    (s.readBody h carrier).state.ack =
      if h.seq = s.ack then u32 (s.ack + h.length) else s.ack := by
  unfold Proto.SnowflakeConn.readBody
  dsimp only
  by_cases hm : h.seq = s.ack
  · simp only [if_pos hm]
    split <;> rfl
  · simp only [if_neg hm]
    split <;> rfl

lemma readBody_state_seq (s : Proto.SnowflakeConn) (h : Proto.snowflakeHeader)
    (carrier : List Nat) :
    (s.readBody h carrier).state.seq = s.seq := by
  unfold Proto.SnowflakeConn.readBody
  dsimp only
  by_cases hm : h.seq = s.ack
  · simp only [if_pos hm]
    split <;> rfl
  · simp only [if_neg hm]
    split <;> rfl

lemma readBody_delivered (s : Proto.SnowflakeConn) (h : Proto.snowflakeHeader)
    (carrier : List Nat) :
    (s.readBody h carrier).delivered =
      if h.seq = s.ack then carrier.take h.length else [] := rfl

lemma readBody_rest (s : Proto.SnowflakeConn) (h : Proto.snowflakeHeader)
    (carrier : List Nat) :
    (s.readBody h carrier).rest = carrier.drop h.length := rfl

lemma readBody_sendsAck (s : Proto.SnowflakeConn) (h : Proto.snowflakeHeader)
    (carrier : List Nat) :
    (s.readBody h carrier).sendsAck =
      if h.seq = s.ack then decide (0 < min h.length carrier.length) else false := rfl

lemma readBody_trim (s : Proto.SnowflakeConn) (h : Proto.snowflakeHeader)
    (carrier : List Nat) (hpos : 0 < i32 (subU32 h.ack s.acked)) :
    (s.readBody h carrier).state.buf = s.buf.drop (i32 (subU32 h.ack s.acked)).toNat ∧
    (s.readBody h carrier).state.acked = u32 h.ack := by
  unfold Proto.SnowflakeConn.readBody
  dsimp only
  by_cases hm : h.seq = s.ack
  · simp only [if_pos hm]
    exact ⟨by rw [if_pos hpos], by rw [if_pos hpos]⟩
  · simp only [if_neg hm]
    exact ⟨by rw [if_pos hpos], by rw [if_pos hpos]⟩

lemma readBody_notrim (s : Proto.SnowflakeConn) (h : Proto.snowflakeHeader)
    (carrier : List Nat) (hneg : ¬ 0 < i32 (subU32 h.ack s.acked)) :
    (s.readBody h carrier).state.buf = s.buf ∧
    (s.readBody h carrier).state.acked = s.acked := by
  unfold Proto.SnowflakeConn.readBody
  dsimp only
  by_cases hm : h.seq = s.ack
  · simp only [if_pos hm]
    exact ⟨by rw [if_neg hneg], by rw [if_neg hneg]⟩
  · simp only [if_neg hm]
    exact ⟨by rw [if_neg hneg], by rw [if_neg hneg]⟩

lemma write_state (s : Proto.SnowflakeConn) (b : List Nat) (ca cw : Bool) :
    (s.Write b ca cw).state =
      { s with seq := u32 (s.seq + b.length), buf := s.buf ++ b } := by
  unfold Proto.SnowflakeConn.Write
  cases ca <;> cases cw <;> dsimp only <;> (repeat' split) <;> rfl

/-- C6: the 18-byte frame header codec of
`common/snowflake-proto/proto.go` -- `Marshal` produces exactly 18
bytes, laid out as seq (BE u32) at bytes 0-3, ack (BE u32) at bytes
4-7, payload length (BE u16) at bytes 8-9 and the 8-byte session id at
bytes 10-17, and `Parse` of those 18 bytes returns the original header
(decode inverts encode). -/
theorem header_codec_roundtrip (h : SProto.snowflakeHeader)
    (hseq : h.seq < u32max) (hack : h.ack < u32max) (hlen : h.length < 65536)
    (hsid : h.sessionID.length = 8) :
    h.Marshal.length = 18 ∧ h.Marshal.drop 10 = h.sessionID ∧
    SProto.snowflakeHeader.Parse h.Marshal = h := by
  obtain ⟨seq, ack, len, sid⟩ := h
  simp only at hseq hack hlen hsid
  have htake : sid.take 8 = sid := by rw [← hsid]; exact sid.take_length
  unfold SProto.snowflakeHeader.Marshal Proto.putUint32BE Proto.putUint16BE
  simp only [hsid, htake, Nat.sub_self, List.replicate, List.append_nil, List.cons_append,
    List.nil_append]
  refine ⟨by simp [hsid], by simp, ?_⟩
  unfold SProto.snowflakeHeader.Parse
  simp only [List.getD_cons_zero, List.getD_cons_succ, List.drop_succ_cons, List.drop_zero,
    htake, SProto.snowflakeHeader.mk.injEq]
  have hs : seq % u32max = seq := by unfold u32max at hseq ⊢; omega
  have ha : ack % u32max = ack := by unfold u32max at hack ⊢; omega
  rw [hs, ha]
  unfold u32max at hseq hack
  refine ⟨by omega, by omega, by omega, trivial⟩

/-- Witness for C6 at a concrete header. -/
theorem header_codec_roundtrip_witness :
    let h : SProto.snowflakeHeader := ⟨16909060, 2864434397, 513, [9, 8, 7, 6, 5, 4, 3, 2]⟩
    h.Marshal.length = 18 ∧ h.Marshal.drop 10 = h.sessionID ∧
      SProto.snowflakeHeader.Parse h.Marshal = h :=
  header_codec_roundtrip _ (by decide) (by decide) (by decide) (by decide)

/-- C9: metrics rounding -- every counter the broker emits on the
metrics endpoint goes through `binCount`, while the unique-IP set
cardinalities are emitted unchanged, and for every counter value `v`
the emitted value `binCount v` is the least multiple of 8 that is
greater than or equal to `v`. -/
theorem metrics_rounding (m : Broker.MetricsSnapshot) (v : Nat) :
    ((Broker.emitMetrics m).idleCount = Broker.binCount m.idleCount ∧
      (Broker.emitMetrics m).deniedCount = Broker.binCount m.deniedCount ∧
      (Broker.emitMetrics m).restrictedDeniedCount = Broker.binCount m.restrictedDeniedCount ∧
      (Broker.emitMetrics m).unrestrictedDeniedCount = Broker.binCount m.unrestrictedDeniedCount ∧
      (Broker.emitMetrics m).matchCount = Broker.binCount m.matchCount ∧
      (Broker.emitMetrics m).ipsTotal = m.ipsTotal ∧
      (Broker.emitMetrics m).ipsStandalone = m.ipsStandalone) ∧
    8 ∣ Broker.binCount v ∧ v ≤ Broker.binCount v ∧
    ∀ w, 8 ∣ w → v ≤ w → Broker.binCount v ≤ w := by
  refine ⟨⟨rfl, rfl, rfl, rfl, rfl, rfl, rfl⟩, ?_, ?_, ?_⟩
  · unfold Broker.binCount; omega
  · unfold Broker.binCount; omega
  · intro w h1 h2; unfold Broker.binCount; omega

/-- Witness for C9 at a concrete snapshot and counter value. -/
theorem metrics_rounding_witness :
    ((Broker.emitMetrics ⟨5, 9, 0, 16, 3, 11, 2⟩).idleCount = Broker.binCount 5 ∧
      (Broker.emitMetrics ⟨5, 9, 0, 16, 3, 11, 2⟩).deniedCount = Broker.binCount 9 ∧
      (Broker.emitMetrics ⟨5, 9, 0, 16, 3, 11, 2⟩).restrictedDeniedCount = Broker.binCount 0 ∧
      (Broker.emitMetrics ⟨5, 9, 0, 16, 3, 11, 2⟩).unrestrictedDeniedCount = Broker.binCount 16 ∧
      (Broker.emitMetrics ⟨5, 9, 0, 16, 3, 11, 2⟩).matchCount = Broker.binCount 3 ∧
      (Broker.emitMetrics ⟨5, 9, 0, 16, 3, 11, 2⟩).ipsTotal = 11 ∧
      (Broker.emitMetrics ⟨5, 9, 0, 16, 3, 11, 2⟩).ipsStandalone = 2) ∧
    8 ∣ Broker.binCount 5 ∧ 5 ≤ Broker.binCount 5 ∧ Broker.binCount 5 ≤ 16 :=
  ⟨(metrics_rounding ⟨5, 9, 0, 16, 3, 11, 2⟩ 5).1,
    (metrics_rounding ⟨5, 9, 0, 16, 3, 11, 2⟩ 5).2.1,
    (metrics_rounding ⟨5, 9, 0, 16, 3, 11, 2⟩ 5).2.2.1,
    (metrics_rounding ⟨5, 9, 0, 16, 3, 11, 2⟩ 5).2.2.2 16 (by decide) (by decide)⟩

/-- C7: a client offer POST with a readable body arriving while the
proxy heap is empty is answered immediately (no wait on the answer
channel) with 503 service-unavailable, and exactly one denied counter
-- the one for the client's declared NAT class -- is incremented. -/
theorem broker_no_capacity_denied (m : Broker.DeniedCounters) (nat : Broker.NATClass)
    (ans : Option (List Nat)) :
    (Broker.clientOffers 0 m nat true ans).resp = .unavailable ∧
    (Broker.clientOffers 0 m nat true ans).waited = false ∧
    (Broker.clientOffers 0 m nat true ans).metrics.restrictedDenied +
        (Broker.clientOffers 0 m nat true ans).metrics.unrestrictedDenied =
      m.restrictedDenied + m.unrestrictedDenied + 1 ∧
    (nat = .unrestricted →
      (Broker.clientOffers 0 m nat true ans).metrics =
        { m with unrestrictedDenied := m.unrestrictedDenied + 1 }) ∧
    (nat ≠ .unrestricted →
      (Broker.clientOffers 0 m nat true ans).metrics =
        { m with restrictedDenied := m.restrictedDenied + 1 }) := by
  unfold Broker.clientOffers Broker.recordDenied
  cases nat <;> simp <;> omega

/-- Witness for C7 at concrete counters and both NAT classes. -/
theorem broker_no_capacity_denied_witness :
    (Broker.clientOffers 0 ⟨4, 7⟩ .restricted true none).resp = .unavailable ∧
    (Broker.clientOffers 0 ⟨4, 7⟩ .restricted true none).metrics =
      { restrictedDenied := 5, unrestrictedDenied := 7 } ∧
    (Broker.clientOffers 0 ⟨4, 7⟩ .unrestricted true none).metrics =
      { restrictedDenied := 4, unrestrictedDenied := 8 } :=
  ⟨(broker_no_capacity_denied ⟨4, 7⟩ .restricted none).1,
    (broker_no_capacity_denied ⟨4, 7⟩ .restricted none).2.2.2.2 (by decide),
    (broker_no_capacity_denied ⟨4, 7⟩ .unrestricted none).2.2.2.1 rfl⟩

/-- C8 counterexample: a POST to `/answer` whose session id is present
in `idToSnowflake` but whose body is empty is answered 400 and delivers
nothing -- refuting the claim that every answer POST with a known
session id has its body delivered and succeeds. -/
theorem proxy_answers_empty_body_counterexample :
    (Broker.proxyAnswers [("abc", 7)] "abc" (some [])).resp = .badRequest ∧
    (Broker.proxyAnswers [("abc", 7)] "abc" (some [])).delivered = none ∧
    (Broker.proxyAnswers [("abc", 7)] "abc" (some [])).resp ≠ .success := by
  decide

/-- C8 as amended: for every `/answer` POST, if the session id maps to
a waiting proxy entry and the body was read successfully and is
non-empty, the body is delivered on that entry's channel and the
request succeeds; if the session id is absent, the response is 410
(gone), nothing is delivered and the session-id map is unchanged. -/
theorem proxy_answers_routing (st : List (String × Nat)) (sid : String)
    (body : List Nat) (sf : Nat) :
    (st.lookup sid = some sf → body ≠ [] →
      (Broker.proxyAnswers st sid (some body)).resp = .success ∧
      (Broker.proxyAnswers st sid (some body)).delivered = some (sf, body) ∧
      (Broker.proxyAnswers st sid (some body)).idToSnowflake = st) ∧
    (st.lookup sid = none →
      (Broker.proxyAnswers st sid (some body)).resp = .gone ∧
      (Broker.proxyAnswers st sid (some body)).delivered = none ∧
      (Broker.proxyAnswers st sid (some body)).idToSnowflake = st) := by
  constructor
  · intro hfound hne
    unfold Broker.proxyAnswers
    rw [hfound]
    have : ¬ body.length ≤ 0 := by
      cases body with
      | nil => exact absurd rfl hne
      | cons a l => simp
    simp [this]
  · intro hnone
    unfold Broker.proxyAnswers
    rw [hnone]
    exact ⟨rfl, rfl, rfl⟩

/-- Witness for the amended C8 on both branches at concrete inputs. -/
theorem proxy_answers_routing_witness :
    ((Broker.proxyAnswers [("abc", 7)] "abc" (some [1, 2])).resp = .success ∧
      (Broker.proxyAnswers [("abc", 7)] "abc" (some [1, 2])).delivered = some (7, [1, 2]) ∧
      (Broker.proxyAnswers [("abc", 7)] "abc" (some [1, 2])).idToSnowflake = [("abc", 7)]) ∧
    ((Broker.proxyAnswers [("abc", 7)] "zzz" (some [1, 2])).resp = .gone ∧
      (Broker.proxyAnswers [("abc", 7)] "zzz" (some [1, 2])).delivered = none ∧
      (Broker.proxyAnswers [("abc", 7)] "zzz" (some [1, 2])).idToSnowflake = [("abc", 7)]) :=
  ⟨(proxy_answers_routing [("abc", 7)] "abc" [1, 2] 7).1 (by decide) (by decide),
    (proxy_answers_routing [("abc", 7)] "zzz" [1, 2] 7).2 (by decide)⟩

/-- C5 counterexample: with `highest_acked_seq = 2^32 - 5` and timer
target `2` (a window that straddles the sequence wraparound), the
signed comparison of the claim says the ack is still behind the target,
so the claim requires the session to be closed on fire -- but the
code's unsigned comparison `s.acked < timer.seq` is false, so the
session is not closed. -/
theorem timer_comparison_counterexample :
    Proto.seqLtSigned (u32max - 5) 2 = true ∧
    Proto.timerFireCloses (u32max - 5) 2 = false := by
  decide

/-- C5 as amended: the timer's target sequence is `next_send_seq` at
arming time (a successful `Write` arms the timer with the advanced
`seq`), and on fire the session is closed iff `highest_acked_seq` is
less than the target under the plain unsigned 32-bit comparison -- in
particular a session whose outstanding bytes were all acknowledged
(`acked = target`) is never closed by the timer, but across a sequence
wraparound the unsigned comparison differs from the signed one. -/
theorem retransmission_timer_unsigned (s : Proto.SnowflakeConn) (b : List Nat) :
    (s.Write b true false).armed = some (u32 (s.seq + b.length)) ∧
    (∀ acked target, Proto.timerFireCloses acked target = true ↔
      acked % u32max < target % u32max) ∧
    (∀ t, Proto.timerFireCloses t t = false) := by
  refine ⟨rfl, fun acked target => ?_, fun t => ?_⟩
  · unfold Proto.timerFireCloses
    exact decide_eq_true_iff ..
  · unfold Proto.timerFireCloses
    simp

/-- Witness for the amended C5 at a concrete state and write. -/
theorem retransmission_timer_unsigned_witness :
    ((⟨u32max - 2, 0, u32max - 2, []⟩ : Proto.SnowflakeConn).Write [1, 2, 3, 4, 5] true false).armed =
        some 3 ∧
      Proto.timerFireCloses 3 3 = false :=
  ⟨(retransmission_timer_unsigned ⟨u32max - 2, 0, u32max - 2, []⟩ [1, 2, 3, 4, 5]).1.trans
      (by decide),
    (retransmission_timer_unsigned ⟨u32max - 2, 0, u32max - 2, []⟩ [1, 2, 3, 4, 5]).2.2 3⟩

/-- C4 (code bug): `Write` on a session whose carrier write fails.  For
a 5-byte payload with a carrier attached whose write errors, the code
reaches `log.Printf("Error writing to connection: %s", err.Error())`
with `err` nil (the named return is only set for over-long payloads)
and panics instead of returning `(5, nil)` as the doc comment above
`Write` and the spec promise; the payload is in the retransmission
buffer at that point.  Without a carrier the same write does return
`(5, nil)` with the payload buffered. -/
theorem write_carrier_failure_panics :
    (Proto.SnowflakeConn.Write ⟨0, 0, 0, []⟩ [72, 69, 76, 76, 79] true true).outcome =
        .panicked ∧
    (Proto.SnowflakeConn.Write ⟨0, 0, 0, []⟩ [72, 69, 76, 76, 79] true true).state.buf =
        [72, 69, 76, 76, 79] ∧
    (Proto.SnowflakeConn.Write ⟨0, 0, 0, []⟩ [72, 69, 76, 76, 79] false false).outcome =
        .ret 5 false ∧
    (Proto.SnowflakeConn.Write ⟨0, 0, 0, []⟩ [72, 69, 76, 76, 79] false false).state.buf =
        [72, 69, 76, 76, 79] := by
  decide

/-- C1: the receive rule of `readBody` -- when the frame's sequence
number equals the receiver's next expected sequence number, exactly the
`N = header.length` payload bytes are delivered to the reader and the
expected sequence number advances by `N` modulo `2^32`; otherwise the
`N` payload bytes are consumed from the carrier and discarded, nothing
is delivered, and the expected sequence number is unchanged. -/
theorem receive_rule (s : Proto.SnowflakeConn) (h : Proto.snowflakeHeader)
    (carrier : List Nat) (hn : h.length ≤ carrier.length) :
    (h.seq = s.ack →
      (s.readBody h carrier).delivered = carrier.take h.length ∧
      (s.readBody h carrier).delivered.length = h.length ∧
      (s.readBody h carrier).state.ack = u32 (s.ack + h.length) ∧
      (s.readBody h carrier).rest = carrier.drop h.length) ∧
    (h.seq ≠ s.ack →
      (s.readBody h carrier).delivered = [] ∧
      (s.readBody h carrier).rest = carrier.drop h.length ∧
      (s.readBody h carrier).state.ack = s.ack) := by
  constructor
  · intro hm
    refine ⟨?_, ?_, ?_, readBody_rest ..⟩
    · rw [readBody_delivered, if_pos hm]
    · rw [readBody_delivered, if_pos hm, List.length_take]
      omega
    · rw [readBody_state_ack, if_pos hm]
  · intro hm
    refine ⟨?_, readBody_rest .., ?_⟩
    · rw [readBody_delivered, if_neg hm]
    · rw [readBody_state_ack, if_neg hm]

/-- Witness for C1, exercising both the in-order and the out-of-order
branch at concrete inputs. -/
theorem receive_rule_witness :
    ((Proto.SnowflakeConn.readBody ⟨0, 5, 0, []⟩ ⟨5, 0, 3⟩ [7, 8, 9, 10]).delivered =
          [7, 8, 9] ∧
        (Proto.SnowflakeConn.readBody ⟨0, 5, 0, []⟩ ⟨5, 0, 3⟩ [7, 8, 9, 10]).state.ack = 8) ∧
      (Proto.SnowflakeConn.readBody ⟨0, 5, 0, []⟩ ⟨9, 0, 3⟩ [7, 8, 9, 10]).delivered = [] :=
  ⟨⟨((receive_rule ⟨0, 5, 0, []⟩ ⟨5, 0, 3⟩ [7, 8, 9, 10] (by decide)).1 rfl).1.trans (by decide),
      ((receive_rule ⟨0, 5, 0, []⟩ ⟨5, 0, 3⟩ [7, 8, 9, 10] (by decide)).1 rfl).2.2.1.trans
        (by decide)⟩,
    ((receive_rule ⟨0, 5, 0, []⟩ ⟨9, 0, 3⟩ [7, 8, 9, 10] (by decide)).2 (by decide)).1⟩

lemma write_frame_success (s : Proto.SnowflakeConn) (b : List Nat) :
    (s.Write b true false).frame =
      some (⟨s.seq, s.ack,
        if b.length > Proto.maxLength then Proto.maxLength else b.length⟩, b) := rfl

/-- C10: pure acknowledgements never generate acknowledgements -- a
received frame with zero payload length delivers nothing to the reader
and schedules no acknowledgement, and an acknowledgement is scheduled
only by a frame that delivered at least one payload byte. -/
theorem pure_ack_no_ack (s : Proto.SnowflakeConn) (h : Proto.snowflakeHeader)
    (carrier : List Nat) :
    (h.length = 0 →
      (s.readBody h carrier).delivered = [] ∧ (s.readBody h carrier).sendsAck = false) ∧
    ((s.readBody h carrier).sendsAck = true → (s.readBody h carrier).delivered ≠ []) := by
  constructor
  · intro h0
    rw [readBody_delivered, readBody_sendsAck]
    by_cases hm : h.seq = s.ack
    · simp [hm, h0]
    · simp [hm]
  · intro hs
    rw [readBody_sendsAck] at hs
    rw [readBody_delivered]
    by_cases hm : h.seq = s.ack
    · rw [if_pos hm] at hs
      rw [if_pos hm]
      have hmin : 0 < min h.length carrier.length := of_decide_eq_true hs
      intro hc
      have h2 := congrArg List.length hc
      rw [List.length_take] at h2
      simp only [List.length_nil] at h2
      omega
    · rw [if_neg hm] at hs
      exact absurd hs (by simp)

/-- Witness for C10: a pure ack frame delivers nothing and schedules no
ack; a data frame that schedules an ack delivered bytes. -/
theorem pure_ack_no_ack_witness :
    ((Proto.SnowflakeConn.readBody ⟨0, 0, 0, []⟩ ⟨0, 5, 0⟩ []).delivered = [] ∧
      (Proto.SnowflakeConn.readBody ⟨0, 0, 0, []⟩ ⟨0, 5, 0⟩ []).sendsAck = false) ∧
    (Proto.SnowflakeConn.readBody ⟨0, 0, 0, []⟩ ⟨0, 0, 3⟩ [1, 2, 3]).delivered ≠ [] :=
  ⟨(pure_ack_no_ack ⟨0, 0, 0, []⟩ ⟨0, 5, 0⟩ []).1 rfl,
    (pure_ack_no_ack ⟨0, 0, 0, []⟩ ⟨0, 0, 3⟩ [1, 2, 3]).2 (by decide)⟩

/-- C3: carrier replacement on a session with a non-empty
retransmission buffer -- `NewSnowflake` closes any previously attached
carrier, rewinds `seq` to `acked`, and re-emits the whole buffer as one
frame on the new carrier whose sequence number field is `acked`, so
every buffered byte goes out under its original sequence number (byte
`i` of the buffer at sequence `acked + i`); afterwards the bytes are
still buffered and `seq` is back to `acked + len(buf)` (mod 2^32). -/
theorem carrier_replacement_resends (s : Proto.SnowflakeConn) (hadConn : Bool)
    (hbuf : s.buf ≠ []) :
    (s.NewSnowflake hadConn false false).closedOld = hadConn ∧
    (s.NewSnowflake hadConn false false).resent =
      some (⟨s.acked, s.ack,
        if s.buf.length > Proto.maxLength then Proto.maxLength else s.buf.length⟩, s.buf) ∧
    (s.NewSnowflake hadConn false false).state.buf = s.buf ∧
    (s.NewSnowflake hadConn false false).state.seq = u32 (s.acked + s.buf.length) := by
  have hlen : s.buf.length > 0 := List.length_pos.mpr hbuf
  have hr : s.NewSnowflake hadConn false false =
      { state := (Proto.SnowflakeConn.Write ⟨s.acked, s.ack, s.acked, []⟩ s.buf true false).state
        closedOld := hadConn
        sentSessionID := false
        resent := (Proto.SnowflakeConn.Write ⟨s.acked, s.ack, s.acked, []⟩ s.buf true false).frame } := by
    unfold Proto.SnowflakeConn.NewSnowflake
    dsimp only
    rw [if_pos hlen]
  rw [hr]
  refine ⟨rfl, ?_, ?_, ?_⟩
  · rw [write_frame_success]
  · rw [write_state]
    simp
  · rw [write_state]

/-- Witness for C3 at a concrete session with five unacked buffered
bytes near the sequence wraparound. -/
theorem carrier_replacement_resends_witness :
    ((⟨u32max - 2, 9, u32max - 2, [72, 69, 76, 76, 79]⟩ : Proto.SnowflakeConn).NewSnowflake
        true false false).closedOld = true ∧
    ((⟨u32max - 2, 9, u32max - 2, [72, 69, 76, 76, 79]⟩ : Proto.SnowflakeConn).NewSnowflake
        true false false).resent = some (⟨u32max - 2, 9, 5⟩, [72, 69, 76, 76, 79]) ∧
    ((⟨u32max - 2, 9, u32max - 2, [72, 69, 76, 76, 79]⟩ : Proto.SnowflakeConn).NewSnowflake
        true false false).state.seq = 3 := by
  have h := carrier_replacement_resends
    ⟨u32max - 2, 9, u32max - 2, [72, 69, 76, 76, 79]⟩ true (by decide)
  exact ⟨h.1, h.2.1.trans (by decide), h.2.2.2.trans (by decide)⟩

/-- Invariant of the retransmission machinery under any valid trace of
operations: relative to a ghost stream (the concatenation of all
written payloads) and ghost positions `A` (bytes acked) and
`stream.length` (bytes sent), the buffer is the suffix of the stream
from position `A`, `acked` encodes position `A` and `seq` encodes the
stream end. -/
lemma runOps_invariant (seq0 : Nat) :
    ∀ (ops : List Proto.Op) (s : Proto.SnowflakeConn) (A : Nat) (stream : List Nat),
      A ≤ stream.length →
      s.acked = u32 (seq0 + A) →
      s.seq = u32 (seq0 + stream.length) →
      s.buf = stream.drop A →
      Proto.validOps seq0 A stream.length ops →
      ∃ B, A ≤ B ∧ B ≤ (stream ++ Proto.writesOf ops).length ∧
        (Proto.runOps s ops).buf = (stream ++ Proto.writesOf ops).drop B ∧
        (Proto.runOps s ops).acked = u32 (seq0 + B) ∧
        (Proto.runOps s ops).seq = u32 (seq0 + (stream ++ Proto.writesOf ops).length) := by
  intro ops
  induction ops with
  | nil =>
    intro s A stream hA hacked hseq hbuf _
    refine ⟨A, le_refl A, ?_, ?_, hacked, ?_⟩
    · simpa [Proto.writesOf] using hA
    · simpa [Proto.writesOf, Proto.runOps] using hbuf
    · simpa [Proto.writesOf, Proto.runOps] using hseq
  | cons op rest ih =>
    intro s A stream hA hacked hseq hbuf hv
    cases op with
    | write b ca cw =>
      have hstep : Proto.runOps s (.write b ca cw :: rest) =
          Proto.runOps (s.Write b ca cw).state rest := rfl
      have hv' : Proto.validOps seq0 A (stream.length + b.length) rest := hv
      have hbl : (stream ++ b).length = stream.length + b.length := List.length_append ..
      have h1 : (s.Write b ca cw).state.acked = u32 (seq0 + A) := by
        rw [write_state]; exact hacked
      have h2 : (s.Write b ca cw).state.seq = u32 (seq0 + (stream ++ b).length) := by
        rw [write_state]
        show u32 (s.seq + b.length) = _
        rw [hseq, u32_u32_add, hbl, Nat.add_assoc]
      have h3 : (s.Write b ca cw).state.buf = (stream ++ b).drop A := by
        rw [write_state]
        show s.buf ++ b = _
        rw [hbuf, List.drop_append_of_le_length hA]
      have h4 : A ≤ (stream ++ b).length := by rw [hbl]; omega
      have h5 : Proto.validOps seq0 A (stream ++ b).length rest := by rw [hbl]; exact hv'
      obtain ⟨B, hB1, hB2, hB3, hB4, hB5⟩ := ih (s.Write b ca cw).state A (stream ++ b) h4 h1 h2 h3 h5
      refine ⟨B, hB1, ?_, ?_, hB4, ?_⟩
      · simpa [Proto.writesOf, List.append_assoc] using hB2
      · simpa [Proto.writesOf, List.append_assoc] using hB3
      · simpa [Proto.writesOf, List.append_assoc] using hB5
    | recv h payload =>
      obtain ⟨⟨a, hAa, haS, hwin, hack⟩, hrest⟩ := hv
      have hstep : Proto.runOps s (.recv h payload :: rest) =
          Proto.runOps (s.readBody h payload).state rest := rfl
      have hsub : subU32 h.ack s.acked = a - A := by
        rw [hack, hacked]; exact subU32_shift seq0 a A hAa hwin
      have hd : i32 (subU32 h.ack s.acked) = ((a - A : Nat) : Int) := by
        rw [hsub]; exact i32_small _ hwin
      have hbuf' : (s.readBody h payload).state.buf = stream.drop a ∧
          (s.readBody h payload).state.acked = u32 (seq0 + a) := by
        rcases Nat.eq_or_lt_of_le hAa with heq | hlt
        · have hz : ¬ 0 < i32 (subU32 h.ack s.acked) := by rw [hd, ← heq]; simp
          obtain ⟨hb, hk⟩ := readBody_notrim s h payload hz
          rw [← heq]
          exact ⟨by rw [hb, hbuf], by rw [hk, hacked]⟩
        · have hz : 0 < i32 (subU32 h.ack s.acked) := by
            rw [hd]
            exact_mod_cast Nat.sub_pos_of_lt hlt
          obtain ⟨hb, hk⟩ := readBody_trim s h payload hz
          constructor
          · rw [hb, hd, hbuf, Int.toNat_natCast, List.drop_drop]
            congr 1
            omega
          · rw [hk, hack, u32_u32]
      have hseq' : (s.readBody h payload).state.seq = u32 (seq0 + stream.length) := by
        rw [readBody_state_seq]; exact hseq
      have hv' : Proto.validOps seq0 a stream.length rest := hrest a hAa haS hwin hack
      obtain ⟨B, hB1, hB2, hB3, hB4, hB5⟩ :=
        ih (s.readBody h payload).state a stream haS hbuf'.2 hseq' hbuf'.1 hv'
      exact ⟨B, le_trans hAa hB1, hB2, hB3, hB4, hB5⟩

/-- C2: retransmission-buffer invariant -- after any valid sequence of
write and frame-receive operations, the bytes in the retransmission
buffer are exactly the suffix of the outbound stream from the acked
position: there is a stream position `B` with `acked` encoding `B`,
`seq` encoding the stream end, and the buffer equal to the stream bytes
in `[B, end)` -- the bytes whose sequence numbers lie in
`[highest_acked_seq, next_send_seq)`.  In particular every write
appends its payload to the buffer, and a frame whose ack field advances
`acked` under the signed 32-bit comparison drops exactly the newly
acknowledged byte count from the front of the buffer. -/
theorem retransmission_buffer_invariant (seq0 a0 : Nat) (ops : List Proto.Op)
    (hseq0 : seq0 < u32max) (hv : Proto.validOps seq0 0 0 ops) :
    (∃ B, B ≤ (Proto.writesOf ops).length ∧
      (Proto.runOps ⟨seq0, a0, seq0, []⟩ ops).buf = (Proto.writesOf ops).drop B ∧
      (Proto.runOps ⟨seq0, a0, seq0, []⟩ ops).acked = u32 (seq0 + B) ∧
      (Proto.runOps ⟨seq0, a0, seq0, []⟩ ops).seq =
        u32 (seq0 + (Proto.writesOf ops).length)) ∧
    (∀ (s : Proto.SnowflakeConn) (b : List Nat) (ca cw : Bool),
      (s.Write b ca cw).state.buf = s.buf ++ b) ∧
    (∀ (s : Proto.SnowflakeConn) (h : Proto.snowflakeHeader) (carrier : List Nat),
      0 < i32 (subU32 h.ack s.acked) →
      (s.readBody h carrier).state.buf =
        s.buf.drop (i32 (subU32 h.ack s.acked)).toNat ∧
      (s.readBody h carrier).state.acked = u32 h.ack) := by
  have hmod : seq0 % u32max = seq0 := Nat.mod_eq_of_lt hseq0
  refine ⟨?_, ?_, readBody_trim⟩
  · obtain ⟨B, hB1, hB2, hB3, hB4, hB5⟩ :=
      runOps_invariant seq0 ops ⟨seq0, a0, seq0, []⟩ 0 []
        (by simp) (by show seq0 = u32 (seq0 + 0); simp [u32, hmod])
        (by show seq0 = u32 (seq0 + 0); simp [u32, hmod]) (by simp) hv
    exact ⟨B, by simpa using hB2, by simpa using hB3, hB4, by simpa using hB5⟩
  · intro s b ca cw
    rw [write_state]

/-- Witness for C2: a 5-byte write straddling the 2^32 sequence
wraparound, an ack of all five bytes (ack field 2 after wraparound),
then a further 2-byte write with no carrier.  The buffer ends as the
stream suffix from position 5. -/
theorem retransmission_buffer_invariant_witness :
    (∃ B, B ≤ (Proto.writesOf [.write [10, 11, 12, 13, 14] true false,
        .recv ⟨0, 2, 0⟩ [], .write [20, 21] false false]).length ∧
      (Proto.runOps ⟨4294967293, 0, 4294967293, []⟩ [.write [10, 11, 12, 13, 14] true false,
          .recv ⟨0, 2, 0⟩ [], .write [20, 21] false false]).buf =
        (Proto.writesOf [.write [10, 11, 12, 13, 14] true false,
          .recv ⟨0, 2, 0⟩ [], .write [20, 21] false false]).drop B ∧
      (Proto.runOps ⟨4294967293, 0, 4294967293, []⟩ [.write [10, 11, 12, 13, 14] true false,
          .recv ⟨0, 2, 0⟩ [], .write [20, 21] false false]).acked = u32 (4294967293 + B) ∧
      (Proto.runOps ⟨4294967293, 0, 4294967293, []⟩ [.write [10, 11, 12, 13, 14] true false,
          .recv ⟨0, 2, 0⟩ [], .write [20, 21] false false]).seq =
        u32 (4294967293 + (Proto.writesOf [.write [10, 11, 12, 13, 14] true false,
          .recv ⟨0, 2, 0⟩ [], .write [20, 21] false false]).length)) ∧
    (∀ (s : Proto.SnowflakeConn) (b : List Nat) (ca cw : Bool),
      (s.Write b ca cw).state.buf = s.buf ++ b) ∧
    (∀ (s : Proto.SnowflakeConn) (h : Proto.snowflakeHeader) (carrier : List Nat),
      0 < i32 (subU32 h.ack s.acked) →
      (s.readBody h carrier).state.buf =
        s.buf.drop (i32 (subU32 h.ack s.acked)).toNat ∧
      (s.readBody h carrier).state.acked = u32 h.ack) :=
  retransmission_buffer_invariant 4294967293 0
    [.write [10, 11, 12, 13, 14] true false, .recv ⟨0, 2, 0⟩ [], .write [20, 21] false false]
    (by decide)
    (by
      simp only [Proto.validOps]
      refine ⟨⟨5, by decide, by decide, by decide, by decide⟩, fun a h1 h2 h3 h4 => trivial⟩)
